import Mathlib

/-!
# busca-cep-go: the CEP race handler

A shallow embedding of `main.go`: the two provider clients
(`BuscaCepViaCep`, `BuscaCepBrasilApi`), the single-provider helper
`BuscaCep`, and the HTTP handler `BuscaCEPHandler` that races the two
clients under one cancellable deadline.

Library calls (`net/http`, `io`, `encoding/json`, `fmt`) are not part of the
program.  Their outcomes are inputs of the model:

* an `Upstream` value records, for one outbound lookup, what each library call
  of the client returned (request construction, transport, body read, decode);
* the JSON string encoder of `encoding/json` is the parameter `quote`;
* an `error` value is represented by its `Error()` text.

Goroutines, unbuffered channels, the wait group and the context are modelled
by an interleaving transition system (`step`) over the state `Sys`:

* the local code of a goroutine between two communications is one step;
* a send on an unbuffered channel and its receive are one step;
* time is a counter (`now`, in nanoseconds); the deadline timer can fire at any
  step once `timeout` has elapsed;
* the enabled steps can run in any order: a goroutine standing at a statement
  has not executed it yet, and nothing bounds the time until it does.
-/

namespace BuscaCepGo

/-! ## Data model -/

/-- The record decoded from a ViaCEP answer (`type ViaCEP struct`). -/
structure ViaCEP where
  Cep : String
  Logradouro : String
  Complemento : String
  Unidade : String
  Bairro : String
  Localidade : String
  Uf : String
  Ibge : String
  Gia : String
  Ddd : String
  Siafi : String
  Source : String
deriving DecidableEq, Repr

/-- The record decoded from a BrasilAPI answer (`type BrasilAPICep struct`). -/
structure BrasilAPICep where
  Cep : String
  State : String
  City : String
  Neighborhood : String
  Street : String
  Service : String
  Source : String
deriving DecidableEq, Repr

/-- The zero value of `ViaCEP` (what `var result ViaCEP` holds, and what a
receive from a closed `chan ViaCEP` yields). -/
def ViaCEP.zero : ViaCEP :=
  ⟨"", "", "", "", "", "", "", "", "", "", "", ""⟩

/-- The zero value of `BrasilAPICep`. -/
def BrasilAPICep.zero : BrasilAPICep :=
  ⟨"", "", "", "", "", "", ""⟩

/-- The output of `json.Marshal` on a `ViaCEP`: the fields in declaration order
under their `json:"..."` names; `quote` is the string encoder of
`encoding/json`. -/
def marshalViaCEP (quote : String → String) (c : ViaCEP) : String :=
  "\x7b\"cep\":" ++ quote c.Cep ++
  ",\"logradouro\":" ++ quote c.Logradouro ++
  ",\"complemento\":" ++ quote c.Complemento ++
  ",\"unidade\":" ++ quote c.Unidade ++
  ",\"bairro\":" ++ quote c.Bairro ++
  ",\"localidade\":" ++ quote c.Localidade ++
  ",\"uf\":" ++ quote c.Uf ++
  ",\"ibge\":" ++ quote c.Ibge ++
  ",\"gia\":" ++ quote c.Gia ++
  ",\"ddd\":" ++ quote c.Ddd ++
  ",\"siafi\":" ++ quote c.Siafi ++
  ",\"source\":" ++ quote c.Source ++ "\x7d"

/-- The output of `json.Marshal` on a `BrasilAPICep`. -/
def marshalBrasilAPICep (quote : String → String) (c : BrasilAPICep) : String :=
  "\x7b\"cep\":" ++ quote c.Cep ++
  ",\"state\":" ++ quote c.State ++
  ",\"city\":" ++ quote c.City ++
  ",\"neighborhood\":" ++ quote c.Neighborhood ++
  ",\"street\":" ++ quote c.Street ++
  ",\"service\":" ++ quote c.Service ++
  ",\"source\":" ++ quote c.Source ++ "\x7d"

/-! ## The upstream collaborators -/

/-- What `json.Unmarshal(body, &result)` did: the error it returned (`none`
for `nil`) and the contents of `result` after the call. -/
structure Decoded (α : Type) where
  err : Option String
  value : α
deriving DecidableEq, Repr

/-- The outcome of the library calls of one outbound lookup, in program order.
A field is consulted only when every earlier call succeeded. -/
structure Upstream (α : Type) where
  /-- error of `http.NewRequestWithContext` -/
  newRequestErr : Option String
  /-- error of `http.DefaultClient.Do` -/
  doErr : Option String
  /-- `resp.StatusCode` of the answer -/
  statusCode : Nat
  /-- error of `io.ReadAll(resp.Body)` -/
  readErr : Option String
  /-- result of `json.Unmarshal` on the body read -/
  decoded : Decoded α
deriving DecidableEq, Repr

/-- The stage of a provider client at which a library call failed. -/
inductive Stage
  | construct
  | transport
  | bodyRead
  | decode
deriving DecidableEq, Repr

/-- The text of the `fmt.Errorf` of `BuscaCepBrasilApi` at each stage, around
the text `e` of the wrapped error. -/
def erroBrasilAPI : Stage → String → String
  | .construct, e => "erro ao criar a requisição na BrasilAPI: " ++ e
  | .transport, e => "erro ao fazer a requisição na BrasilAPI: " ++ e
  | .bodyRead, e => "erro ao ler o corpo da resposta da BrasilAPI: " ++ e
  | .decode, e => "erro ao fazer o decode do corpo da resposta da BrasilAPI: " ++ e

/-- The text of the `fmt.Errorf` of `BuscaCepViaCep` at each stage. -/
def erroViaCEP : Stage → String → String
  | .construct, e => "erro ao fazer a requisição na ViaCEP: " ++ e
  | .transport, e => "erro ao fazer a requisição na ViaCEP: " ++ e
  | .bodyRead, e => "erro ao ler o corpo da resposta da ViaCEP: " ++ e
  | .decode, e => "erro ao fazer o decode do corpo da resposta da ViaCEP: " ++ e

/-- What a racing client has in hand when it reaches its hand-off: a failure
report for `errCh`, or a record for its result channel. -/
inductive Outcome (α : Type)
  | failure (msg : String)
  | success (r : α)
deriving DecidableEq, Repr

/-- The body of `BuscaCepBrasilApi` up to its hand-off.  `get` gives the
outcome of the library calls for a URL. -/
def BuscaCepBrasilApi (get : String → Upstream BrasilAPICep) (cep : String) :
    Outcome BrasilAPICep :=
  let u := get ("https://brasilapi.com.br/api/cep/v1/" ++ cep)
  match u.newRequestErr with
  | some e => .failure (erroBrasilAPI .construct e)
  | none =>
    match u.doErr with
    | some e => .failure (erroBrasilAPI .transport e)
    | none =>
      match u.readErr with
      | some e => .failure (erroBrasilAPI .bodyRead e)
      | none =>
        match u.decoded.err with
        | some e => .failure (erroBrasilAPI .decode e)
        | none => .success { u.decoded.value with Source := "BrasilAPI" }

/-- The body of `BuscaCepViaCep` up to its hand-off. -/
def BuscaCepViaCep (get : String → Upstream ViaCEP) (cep : String) :
    Outcome ViaCEP :=
  let u := get ("https://viacep.com.br/ws/" ++ cep ++ "/json/")
  match u.newRequestErr with
  | some e => .failure (erroViaCEP .construct e)
  | none =>
    match u.doErr with
    | some e => .failure (erroViaCEP .transport e)
    | none =>
      match u.readErr with
      | some e => .failure (erroViaCEP .bodyRead e)
      | none =>
        match u.decoded.err with
        | some e => .failure (erroViaCEP .decode e)
        | none => .success { u.decoded.value with Source := "ViaCEP" }

/-- The helper `BuscaCep`: `http.Get`, `io.ReadAll`, `json.Unmarshal`, and
`return &c, nil` whatever `json.Unmarshal` returned.  `http.Get` fails when
building the request or the transport fails. -/
def BuscaCep (get : String → Upstream ViaCEP) (cep : String) :
    Except String ViaCEP :=
  let u := get ("https://viacep.com.br/ws/" ++ cep ++ "/json/")
  match u.newRequestErr with
  | some e => .error e
  | none =>
    match u.doErr with
    | some e => .error e
    | none =>
      match u.readErr with
      | some e => .error e
      | none => .ok u.decoded.value

/-- Outbound network calls of one racing client: `Do` runs once when the
request could be built. -/
def outboundCalls {α : Type} (u : Upstream α) : Nat :=
  match u.newRequestErr with
  | some _ => 0
  | none => 1

/-! ## The HTTP boundary -/

/-- An inbound request as the handler reads it: `r.URL.Path` and the parsed
query `r.URL.Query()` (a key with its list of values). -/
structure Request where
  path : String
  query : List (String × List String)
deriving DecidableEq, Repr

/-- The method `url.Values.Get`: the first value of the key, `""` when the key
is absent or has no value. -/
def Values.Get (v : List (String × List String)) (key : String) : String :=
  match v.lookup key with
  | some (x :: _) => x
  | _ => ""

/-- The observable state of an `http.ResponseWriter`: the header map, the
status code once the header is written, and the body written so far. -/
structure ResponseWriter where
  header : List (String × String)
  status : Option Nat
  body : String
deriving DecidableEq, Repr

/-- A response writer nothing was written to. -/
def ResponseWriter.fresh : ResponseWriter := ⟨[], none, ""⟩

/-- The call `w.Header().Del(key)`. -/
def ResponseWriter.delHeader (w : ResponseWriter) (key : String) : ResponseWriter :=
  { w with header := w.header.filter (fun p => p.1 != key) }

/-- The call `w.Header().Set(key, value)`. -/
def ResponseWriter.setHeader (w : ResponseWriter) (key value : String) : ResponseWriter :=
  { w with header := (key, value) :: w.header.filter (fun p => p.1 != key) }

/-- The call `w.WriteHeader(code)`: only the first call counts. -/
def ResponseWriter.WriteHeader (w : ResponseWriter) (code : Nat) : ResponseWriter :=
  match w.status with
  | some _ => w
  | none => { w with status := some code }

/-- The call `w.Write(b)`: writes the header with `http.StatusOK` when it is
not written yet, then the bytes. -/
def ResponseWriter.Write (w : ResponseWriter) (b : String) : ResponseWriter :=
  let w1 := w.WriteHeader 200
  { w1 with body := w1.body ++ b }

/-- The function `http.Error(w, msg, code)`. -/
def httpError (w : ResponseWriter) (msg : String) (code : Nat) : ResponseWriter :=
  let w1 := w.delHeader "Content-Length"
  let w2 := w1.setHeader "Content-Type" "text/plain; charset=utf-8"
  let w3 := w2.setHeader "X-Content-Type-Options" "nosniff"
  (w3.WriteHeader code).Write (msg ++ "\n")

/-- The `%v` verb of `fmt` on an `error`: its text, `<nil>` for a nil error. -/
def fmtV : Option String → String
  | some m => m
  | none => "<nil>"

/-- The select case `result := <-cepBrasilApi`. -/
def respondBrasil (quote : String → String) (w : ResponseWriter)
    (result : BrasilAPICep) : ResponseWriter :=
  let resultJSON := marshalBrasilAPICep quote result
  (w.setHeader "Content-Type" "application/json").Write resultJSON

/-- The select case `result := <-cepViaCep`. -/
def respondVia (quote : String → String) (w : ResponseWriter)
    (result : ViaCEP) : ResponseWriter :=
  let resultJSON := marshalViaCEP quote result
  (w.setHeader "Content-Type" "application/json").Write resultJSON

/-- The select case `err := <-errCh`; a closed `errCh` yields a nil error. -/
def respondErr (w : ResponseWriter) (err : Option String) : ResponseWriter :=
  httpError w ("Erro: " ++ fmtV err) 500

/-- The select case `<-ctx.Done()`. -/
def respondTimeout (w : ResponseWriter) : ResponseWriter :=
  httpError w "Timeout" 408

/-! ## The race as a transition system -/

/-- Where a provider client goroutine stands. -/
inductive Client (α : Type)
  /-- the `go` statement was not executed -/
  | notStarted
  /-- spawned, the library calls not yet made -/
  | started
  /-- at `errCh <- fmt.Errorf(...)`, a plain blocking send -/
  | sendErr (msg : String)
  /-- at `select { case ch <- result: case <-ctx.Done(): }` -/
  | sendRes (r : α)
  /-- returned, the deferred `wg.Done()` executed -/
  | finished
deriving DecidableEq, Repr

/-- Where the goroutine `wg.Wait(); close(...); close(...); close(...)` stands. -/
inductive Closer
  | notStarted
  /-- at `wg.Wait()` -/
  | waiting
  /-- at `close(cepBrasilApi)` -/
  | closeBrasil
  /-- at `close(cepViaCep)` -/
  | closeVia
  /-- at `close(errCh)` -/
  | closeErr
  | finished
deriving DecidableEq, Repr

/-- Where the handler goroutine stands. -/
inductive Handler
  /-- at the `select`, no case taken yet -/
  | atSelect
  /-- returned, the deferred `cancel()` executed -/
  | returned
deriving DecidableEq, Repr

/-- The state of one run of `BuscaCEPHandler`. -/
structure Sys where
  /-- the lookup key `cepParam` -/
  cep : String
  handler : Handler
  w : ResponseWriter
  via : Client ViaCEP
  brasil : Client BrasilAPICep
  closer : Closer
  /-- the counter of the `sync.WaitGroup` -/
  wg : Nat
  closedBrasil : Bool
  closedVia : Bool
  closedErr : Bool
  /-- nanoseconds elapsed since `context.WithTimeout` -/
  now : Nat
  /-- the deadline timer of the context has fired -/
  fired : Bool
  /-- the function `cancel` was called -/
  cancelled : Bool
  /-- outbound network calls made by `BuscaCepViaCep` -/
  viaCalls : Nat
  /-- outbound network calls made by `BuscaCepBrasilApi` -/
  brasilCalls : Nat
  /-- a goroutine panicked (send on a closed channel, negative counter) -/
  panicked : Bool
deriving DecidableEq, Repr

/-- The timeout of the context, `1*time.Second`, in nanoseconds. -/
def timeout : Nat := 1 * 1000000000

/-- The channel `ctx.Done()` is closed. -/
def ctxDone (s : Sys) : Bool := s.fired || s.cancelled

/-- The handler writes its response and returns; the deferred `cancel()` runs. -/
def handlerReturn (s : Sys) (w : ResponseWriter) : Sys :=
  { s with handler := .returned, w := w, cancelled := true }

/-- The call `wg.Done()`; a negative counter panics. -/
def wgDone (s : Sys) : Sys :=
  if s.wg = 0 then { s with panicked := true } else { s with wg := s.wg - 1 }

/-- The handler `BuscaCEPHandler` from its entry to its `select` (or to its
early return): channels and context are created, `wg.Add(2)`, the two checks,
then the three `go` statements. -/
def BuscaCEPHandler (r : Request) : Sys :=
  let s0 : Sys :=
    { cep := "", handler := .atSelect, w := ResponseWriter.fresh,
      via := .notStarted, brasil := .notStarted, closer := .notStarted,
      wg := 2, closedBrasil := false, closedVia := false, closedErr := false,
      now := 0, fired := false, cancelled := false,
      viaCalls := 0, brasilCalls := 0, panicked := false }
  if r.path ≠ "/" then
    handlerReturn s0 (s0.w.WriteHeader 404)
  else
    let cepParam := Values.Get r.query "cep"
    if cepParam = "" then
      handlerReturn s0 (s0.w.WriteHeader 400)
    else
      { s0 with cep := cepParam, via := .started, brasil := .started,
                closer := .waiting }

/-- The environment of a run: the two upstream services (by URL) and the JSON
string encoder. -/
structure Env where
  viacep : String → Upstream ViaCEP
  brasilapi : String → Upstream BrasilAPICep
  quote : String → String

/-- The state of a client that has made its library calls. -/
def Client.ofOutcome {α : Type} : Outcome α → Client α
  | .failure m => .sendErr m
  | .success r => .sendRes r

/-- One scheduling step of the run. -/
inductive Action
  /-- time passes -/
  | tick (d : Nat)
  /-- the deadline timer fires and closes `ctx.Done()` -/
  | timerFire
  /-- the goroutine `BuscaCepViaCep` runs up to its hand-off -/
  | viaFetch
  /-- the goroutine `BuscaCepBrasilApi` runs up to its hand-off -/
  | brasilFetch
  /-- the handler takes `case result := <-cepBrasilApi` -/
  | recvBrasil
  /-- the handler takes `case result := <-cepViaCep` -/
  | recvVia
  /-- the handler takes `case err := <-errCh`, sender `BuscaCepViaCep` -/
  | recvErrVia
  /-- the handler takes `case err := <-errCh`, sender `BuscaCepBrasilApi` -/
  | recvErrBrasil
  /-- the handler takes `case err := <-errCh` on the closed channel -/
  | recvErrClosed
  /-- the handler takes `case <-ctx.Done()` -/
  | recvDone
  /-- the goroutine `BuscaCepViaCep` takes `case <-ctx.Done()` -/
  | viaAbandon
  /-- the goroutine `BuscaCepBrasilApi` takes `case <-ctx.Done()` -/
  | brasilAbandon
  /-- the closing goroutine makes its next step -/
  | closerStep
  /-- the goroutine `BuscaCepViaCep` sends on a closed channel -/
  | viaSendClosed
  /-- the goroutine `BuscaCepBrasilApi` sends on a closed channel -/
  | brasilSendClosed
deriving DecidableEq, Repr

/-- The steps of the handler goroutine. -/
def Action.isHandler : Action → Bool
  | .recvBrasil | .recvVia | .recvErrVia | .recvErrBrasil | .recvErrClosed
  | .recvDone => true
  | _ => false

/-- The transition function: the state after action `a`, `none` when `a`
cannot run in `s`.  Channels are unbuffered, so a send and its receive are one
step.  A `select` with several cases that can proceed takes any one of them:
each is an action of its own.  A hand-off on a result channel is enabled
whenever both parties stand at their `select`, also once `ctx.Done()` is
closed; the runs used as examples below hand over before that only. -/
def step (env : Env) (a : Action) (s : Sys) : Option Sys :=
  if s.panicked then none else
  match a with
  | .tick d => some { s with now := s.now + d }
  | .timerFire =>
    if s.fired = false ∧ s.cancelled = false ∧ timeout ≤ s.now then
      some { s with fired := true }
    else none
  | .viaFetch =>
    match s.via with
    | .started =>
      some { s with
        via := Client.ofOutcome (BuscaCepViaCep env.viacep s.cep),
        viaCalls := s.viaCalls +
          outboundCalls (env.viacep ("https://viacep.com.br/ws/" ++ s.cep ++ "/json/")) }
    | _ => none
  | .brasilFetch =>
    match s.brasil with
    | .started =>
      some { s with
        brasil := Client.ofOutcome (BuscaCepBrasilApi env.brasilapi s.cep),
        brasilCalls := s.brasilCalls +
          outboundCalls (env.brasilapi ("https://brasilapi.com.br/api/cep/v1/" ++ s.cep)) }
    | _ => none
  | .recvBrasil =>
    match s.handler with
    | .returned => none
    | .atSelect =>
      match s.brasil with
      | .sendRes r =>
        some (handlerReturn (wgDone { s with brasil := .finished })
          (respondBrasil env.quote s.w r))
      | _ =>
        if s.closedBrasil then
          some (handlerReturn s (respondBrasil env.quote s.w BrasilAPICep.zero))
        else none
  | .recvVia =>
    match s.handler with
    | .returned => none
    | .atSelect =>
      match s.via with
      | .sendRes r =>
        some (handlerReturn (wgDone { s with via := .finished })
          (respondVia env.quote s.w r))
      | _ =>
        if s.closedVia then
          some (handlerReturn s (respondVia env.quote s.w ViaCEP.zero))
        else none
  | .recvErrVia =>
    match s.handler with
    | .returned => none
    | .atSelect =>
      match s.via with
      | .sendErr m =>
        some (handlerReturn (wgDone { s with via := .finished })
          (respondErr s.w (some m)))
      | _ => none
  | .recvErrBrasil =>
    match s.handler with
    | .returned => none
    | .atSelect =>
      match s.brasil with
      | .sendErr m =>
        some (handlerReturn (wgDone { s with brasil := .finished })
          (respondErr s.w (some m)))
      | _ => none
  | .recvErrClosed =>
    match s.handler with
    | .returned => none
    | .atSelect =>
      if s.closedErr then some (handlerReturn s (respondErr s.w none)) else none
  | .recvDone =>
    match s.handler with
    | .returned => none
    | .atSelect =>
      if ctxDone s then some (handlerReturn s (respondTimeout s.w)) else none
  | .viaAbandon =>
    match s.via with
    | .sendRes _ =>
      if ctxDone s then some (wgDone { s with via := .finished }) else none
    | _ => none
  | .brasilAbandon =>
    match s.brasil with
    | .sendRes _ =>
      if ctxDone s then some (wgDone { s with brasil := .finished }) else none
    | _ => none
  | .closerStep =>
    match s.closer with
    | .waiting => if s.wg = 0 then some { s with closer := .closeBrasil } else none
    | .closeBrasil => some { s with closedBrasil := true, closer := .closeVia }
    | .closeVia => some { s with closedVia := true, closer := .closeErr }
    | .closeErr => some { s with closedErr := true, closer := .finished }
    | _ => none
  | .viaSendClosed =>
    match s.via with
    | .sendErr _ => if s.closedErr then some { s with panicked := true } else none
    | .sendRes _ => if s.closedVia then some { s with panicked := true } else none
    | _ => none
  | .brasilSendClosed =>
    match s.brasil with
    | .sendErr _ => if s.closedErr then some { s with panicked := true } else none
    | .sendRes _ => if s.closedBrasil then some { s with panicked := true } else none
    | _ => none

/-- The state after a schedule, `none` when one of its actions cannot run. -/
def run (env : Env) : List Action → Sys → Option Sys
  | [], s => some s
  | a :: as, s =>
    match step env a s with
    | some s1 => run env as s1
    | none => none

/-- The state `t` is reached from `s` by some schedule. -/
def Reachable (env : Env) (s t : Sys) : Prop :=
  ∃ as : List Action, run env as s = some t

/-! ## Invariants of a started race -/

/-- Clients that have not executed `wg.Done()`. -/
def pending {α : Type} : Client α → Nat
  | .finished => 0
  | _ => 1

/-- What the closing goroutine has done at each of its program points. -/
def closerOk (s : Sys) : Prop :=
  match s.closer with
  | .notStarted => False
  | .waiting => s.closedBrasil = false ∧ s.closedVia = false ∧ s.closedErr = false
  | .closeBrasil =>
    s.wg = 0 ∧ s.closedBrasil = false ∧ s.closedVia = false ∧ s.closedErr = false
  | .closeVia =>
    s.wg = 0 ∧ s.closedBrasil = true ∧ s.closedVia = false ∧ s.closedErr = false
  | .closeErr =>
    s.wg = 0 ∧ s.closedBrasil = true ∧ s.closedVia = true ∧ s.closedErr = false
  | .finished =>
    s.wg = 0 ∧ s.closedBrasil = true ∧ s.closedVia = true ∧ s.closedErr = true

/-- A client that was spawned is where its code can be: not yet run, offering
the outcome its code computed, or finished. -/
def clientOk {α : Type} (c : Client α) (o : Outcome α) : Prop :=
  c = .started ∨ c = Client.ofOutcome o ∨ c = .finished

/-- The invariant of every state of a started race. -/
structure Inv (env : Env) (s : Sys) : Prop where
  noPanic : s.panicked = false
  wgCount : s.wg = pending s.via + pending s.brasil
  closer : closerOk s
  fresh : s.handler = .atSelect → s.w = ResponseWriter.fresh ∧ s.cancelled = false
  via : clientOk s.via (BuscaCepViaCep env.viacep s.cep)
  brasil : clientOk s.brasil (BuscaCepBrasilApi env.brasilapi s.cep)
  late : s.fired = true → timeout ≤ s.now
  viaGone : s.handler = .atSelect → s.via = .finished → s.fired = true
  brasilGone : s.handler = .atSelect → s.brasil = .finished → s.fired = true

/-- A request that passes both checks of the handler. -/
def Request.valid (r : Request) : Prop :=
  r.path = "/" ∧ Values.Get r.query "cep" ≠ ""

instance (r : Request) : Decidable r.valid := by
  unfold Request.valid
  infer_instance

/-- A run in which no goroutine was spawned: the handler returned at one of
its two checks. -/
structure Idle (s : Sys) : Prop where
  handler : s.handler = .returned
  via : s.via = .notStarted
  brasil : s.brasil = .notStarted
  closer : s.closer = .notStarted
  viaCalls : s.viaCalls = 0
  brasilCalls : s.brasilCalls = 0
  open1 : s.closedBrasil = false
  open2 : s.closedVia = false
  open3 : s.closedErr = false
  noPanic : s.panicked = false

/-! ## Sample inputs -/

/-- The JSON string encoder on strings that need no escaping: the text
between double quotes. -/
def quotePlain (s : String) : String := "\"" ++ s ++ "\""

/-- An upstream answer with status 200 whose body decodes to `v`. -/
def upOk {α : Type} (v : α) : Upstream α :=
  ⟨none, none, 200, none, ⟨none, v⟩⟩

/-- An upstream call whose transport fails with error text `e`. -/
def upTransportFails {α : Type} (e : String) (v : α) : Upstream α :=
  ⟨none, some e, 0, none, ⟨none, v⟩⟩

/-- An upstream answer with status 404 whose JSON body has none of the keys of
the record: `json.Unmarshal` succeeds and leaves the record at its zero value. -/
def upNotFound {α : Type} (zero : α) : Upstream α :=
  ⟨none, none, 404, none, ⟨none, zero⟩⟩

/-- A BrasilAPI record as decoded from an answer. -/
def sampleBrasil : BrasilAPICep :=
  ⟨"01001000", "SP", "Sao Paulo", "Se", "Praca da Se", "open-cep", ""⟩

/-- A ViaCEP record as decoded from an answer. -/
def sampleVia : ViaCEP :=
  ⟨"01001-000", "Praca da Se", "lado impar", "", "Se", "Sao Paulo", "SP",
    "3550308", "1004", "11", "7107", ""⟩

/-- The request `GET /?cep=01001000`. -/
def sampleRequest : Request := ⟨"/", [("cep", ["01001000"])]⟩

/-- Both services answer with a record. -/
def envBothOk : Env :=
  ⟨fun _ => upOk sampleVia, fun _ => upOk sampleBrasil, quotePlain⟩

/-- ViaCEP is unreachable, BrasilAPI answers with a record. -/
def envViaDown : Env :=
  ⟨fun _ => upTransportFails "dial tcp: connection refused" ViaCEP.zero,
   fun _ => upOk sampleBrasil, quotePlain⟩

/-- BrasilAPI answers with a record; the call to ViaCEP is cut short by the
cancellation of the context. -/
def envViaCanceled : Env :=
  ⟨fun _ => upTransportFails "context canceled" ViaCEP.zero,
   fun _ => upOk sampleBrasil, quotePlain⟩

/-- Both services are unreachable; `e` is the text of the BrasilAPI transport
error. -/
def envBothDown (e : String) : Env :=
  ⟨fun _ => upTransportFails "dial tcp: connection refused" ViaCEP.zero,
   fun _ => upTransportFails e BrasilAPICep.zero, quotePlain⟩

/-- Both upstream calls are cut short by the expiry of the deadline. -/
def envBothExpired : Env :=
  ⟨fun _ => upTransportFails "context deadline exceeded" ViaCEP.zero,
   fun _ => upTransportFails "context deadline exceeded" BrasilAPICep.zero, quotePlain⟩

/-- A client stands at its hand-off, a failure report or a record in hand. -/
def offering {α : Type} : Client α → Bool
  | .sendErr _ => true
  | .sendRes _ => true
  | _ => false

/-- The JSON keys of the two provider records. -/
def jsonFieldNames : List String :=
  ["cep", "logradouro", "complemento", "unidade", "bairro", "localidade", "uf",
   "ibge", "gia", "ddd", "siafi", "source", "state", "city", "neighborhood",
   "street", "service"]

/-! ## Invariance -/

theorem inv_init (env : Env) (r : Request) (h : r.valid) :
    Inv env (BuscaCEPHandler r) := by
  obtain ⟨hp, hc⟩ := h
  constructor <;> simp [BuscaCEPHandler, hp, hc, pending, closerOk, clientOk]

theorem inv_handlerReturn (env : Env) (s : Sys) (w : ResponseWriter)
    (hs : Inv env s) : Inv env (handlerReturn s w) := by
  obtain ⟨h1, h2, h3, h4, h5, h6, h7, h8, h9⟩ := hs
  exact ⟨h1, h2, h3, fun hc => (by cases hc), h5, h6, h7, fun hc => (by cases hc),
    fun hc => (by cases hc)⟩

theorem closerOk_waiting (s : Sys) (h : closerOk s) (hw : s.wg ≠ 0) :
    s.closer = .waiting ∧ s.closedBrasil = false ∧ s.closedVia = false ∧
      s.closedErr = false := by
  unfold closerOk at h
  split at h
  · exact h.elim
  · rename_i hc
    exact ⟨hc, h.1, h.2.1, h.2.2⟩
  all_goals exact absurd h.1 hw

theorem ofOutcome_ne_finished {α : Type} (o : Outcome α) :
    Client.ofOutcome o ≠ .finished := by
  cases o <;> simp [Client.ofOutcome]

theorem inv_brasilDone (env : Env) (s : Sys) (hs : Inv env s)
    (hp : pending s.brasil = 1) (hg : s.handler = .atSelect → s.fired = true) :
    Inv env (wgDone { s with brasil := .finished }) := by
  obtain ⟨h1, h2, h3, h4, h5, h6, h7, h8, h9⟩ := hs
  have hw : s.wg ≠ 0 := by omega
  obtain ⟨hc, hb, hv, he⟩ := closerOk_waiting s h3 hw
  have e : wgDone { s with brasil := .finished } =
      { s with brasil := .finished, wg := s.wg - 1 } := by
    simp [wgDone, hw]
  rw [e]
  refine ⟨h1, ?_, ?_, h4, h5, Or.inr (Or.inr rfl), h7, h8, fun ha _ => hg ha⟩
  · show s.wg - 1 = pending s.via + 0
    omega
  · simp only [closerOk, hc]
    exact ⟨hb, hv, he⟩

theorem inv_viaDone (env : Env) (s : Sys) (hs : Inv env s)
    (hp : pending s.via = 1) (hg : s.handler = .atSelect → s.fired = true) :
    Inv env (wgDone { s with via := .finished }) := by
  obtain ⟨h1, h2, h3, h4, h5, h6, h7, h8, h9⟩ := hs
  have hw : s.wg ≠ 0 := by omega
  obtain ⟨hc, hb, hv, he⟩ := closerOk_waiting s h3 hw
  have e : wgDone { s with via := .finished } =
      { s with via := .finished, wg := s.wg - 1 } := by
    simp [wgDone, hw]
  rw [e]
  refine ⟨h1, ?_, ?_, h4, Or.inr (Or.inr rfl), h6, h7, fun ha _ => hg ha, h9⟩
  · show s.wg - 1 = 0 + pending s.brasil
    omega
  · simp only [closerOk, hc]
    exact ⟨hb, hv, he⟩

theorem handlerReturn_brasilDone (s : Sys) (w : ResponseWriter) :
    handlerReturn (wgDone { s with brasil := .finished }) w =
      wgDone { handlerReturn s w with brasil := .finished } := by
  simp only [handlerReturn, wgDone]
  split <;> rfl

theorem handlerReturn_viaDone (s : Sys) (w : ResponseWriter) :
    handlerReturn (wgDone { s with via := .finished }) w =
      wgDone { handlerReturn s w with via := .finished } := by
  simp only [handlerReturn, wgDone]
  split <;> rfl

theorem inv_brasilHandoff (env : Env) (s : Sys) (w : ResponseWriter) (hs : Inv env s)
    (hp : pending s.brasil = 1) :
    Inv env (handlerReturn (wgDone { s with brasil := .finished }) w) := by
  rw [handlerReturn_brasilDone]
  exact inv_brasilDone env _ (inv_handlerReturn env s w hs) hp (fun hc => (by cases hc))

theorem inv_viaHandoff (env : Env) (s : Sys) (w : ResponseWriter) (hs : Inv env s)
    (hp : pending s.via = 1) :
    Inv env (handlerReturn (wgDone { s with via := .finished }) w) := by
  rw [handlerReturn_viaDone]
  exact inv_viaDone env _ (inv_handlerReturn env s w hs) hp (fun hc => (by cases hc))

theorem fired_of_done (env : Env) (s : Sys) (hs : Inv env s) (hd : ctxDone s = true)
    (ha : s.handler = .atSelect) : s.fired = true := by
  have hc := (hs.fresh ha).2
  simpa [ctxDone, hc] using hd

theorem inv_step (env : Env) (a : Action) (s t : Sys) (hs : Inv env s)
    (h : step env a s = some t) : Inv env t := by
  have hs0 := hs
  obtain ⟨h1, h2, h3, h4, h5, h6, h7, h8, h9⟩ := hs
  simp only [step, h1, Bool.false_eq_true, ↓reduceIte] at h
  cases a <;> simp only at h
  case tick d =>
    obtain rfl := Option.some.inj h
    exact ⟨rfl, h2, h3, h4, h5, h6,
      fun hf => Nat.le_trans (h7 hf) (Nat.le_add_right _ _), h8, h9⟩
  case timerFire =>
    split at h
    · obtain rfl := Option.some.inj h
      rename_i hc
      exact ⟨rfl, h2, h3, h4, h5, h6, fun _ => hc.2.2, fun _ _ => rfl, fun _ _ => rfl⟩
    · cases h
  case viaFetch =>
    split at h
    · obtain rfl := Option.some.inj h
      rename_i hv
      refine ⟨rfl, ?_, h3, h4, ?_, h6, h7, ?_, h9⟩
      · simp only [h2, hv, pending, Client.ofOutcome]
        cases BuscaCepViaCep env.viacep s.cep <;> rfl
      · exact Or.inr (Or.inl rfl)
      · exact fun _ hc => absurd hc (ofOutcome_ne_finished _)
    · cases h
  case brasilFetch =>
    split at h
    · obtain rfl := Option.some.inj h
      rename_i hv
      refine ⟨rfl, ?_, h3, h4, h5, ?_, h7, h8, ?_⟩
      · simp only [h2, hv, pending, Client.ofOutcome]
        cases BuscaCepBrasilApi env.brasilapi s.cep <;> rfl
      · exact Or.inr (Or.inl rfl)
      · exact fun _ hc => absurd hc (ofOutcome_ne_finished _)
    · cases h
  case recvBrasil =>
    split at h
    · cases h
    · split at h
      · obtain rfl := Option.some.inj h
        rename_i r hv
        have := inv_brasilHandoff env s (respondBrasil env.quote s.w r) hs0
          (by rw [hv]; rfl)
        rw [h1] at this
        exact this
      · split at h
        · obtain rfl := Option.some.inj h
          exact inv_handlerReturn env _ _ hs0
        · cases h
  case recvVia =>
    split at h
    · cases h
    · split at h
      · obtain rfl := Option.some.inj h
        rename_i r hv
        have := inv_viaHandoff env s (respondVia env.quote s.w r) hs0 (by rw [hv]; rfl)
        rw [h1] at this
        exact this
      · split at h
        · obtain rfl := Option.some.inj h
          exact inv_handlerReturn env _ _ hs0
        · cases h
  case recvErrVia =>
    split at h
    · cases h
    · split at h
      · obtain rfl := Option.some.inj h
        rename_i m hv
        have := inv_viaHandoff env s (respondErr s.w (some m)) hs0 (by rw [hv]; rfl)
        rw [h1] at this
        exact this
      · cases h
  case recvErrBrasil =>
    split at h
    · cases h
    · split at h
      · obtain rfl := Option.some.inj h
        rename_i m hv
        have := inv_brasilHandoff env s (respondErr s.w (some m)) hs0 (by rw [hv]; rfl)
        rw [h1] at this
        exact this
      · cases h
  case recvErrClosed =>
    split at h
    · cases h
    · split at h
      · obtain rfl := Option.some.inj h
        exact inv_handlerReturn env _ _ hs0
      · cases h
  case recvDone =>
    split at h
    · cases h
    · split at h
      · obtain rfl := Option.some.inj h
        exact inv_handlerReturn env _ _ hs0
      · cases h
  case viaAbandon =>
    split at h
    · split at h
      · obtain rfl := Option.some.inj h
        rename_i hv hd
        have := inv_viaDone env s hs0 (by rw [hv]; rfl) (fired_of_done env s hs0 hd)
        rw [h1] at this
        exact this
      · cases h
    · cases h
  case brasilAbandon =>
    split at h
    · split at h
      · obtain rfl := Option.some.inj h
        rename_i hv hd
        have := inv_brasilDone env s hs0 (by rw [hv]; rfl) (fired_of_done env s hs0 hd)
        rw [h1] at this
        exact this
      · cases h
    · cases h
  case closerStep =>
    unfold closerOk at h3
    split at h
    · split at h
      · obtain rfl := Option.some.inj h
        rename_i hc hw
        rw [hc] at h3
        exact ⟨rfl, h2, ⟨hw, h3⟩, h4, h5, h6, h7, h8, h9⟩
      · cases h
    · obtain rfl := Option.some.inj h
      rename_i hc
      rw [hc] at h3
      exact ⟨rfl, h2, ⟨h3.1, rfl, h3.2.2⟩, h4, h5, h6, h7, h8, h9⟩
    · obtain rfl := Option.some.inj h
      rename_i hc
      rw [hc] at h3
      exact ⟨rfl, h2, ⟨h3.1, h3.2.1, rfl, h3.2.2.2⟩, h4, h5, h6, h7, h8, h9⟩
    · obtain rfl := Option.some.inj h
      rename_i hc
      rw [hc] at h3
      exact ⟨rfl, h2, ⟨h3.1, h3.2.1, h3.2.2.1, rfl⟩, h4, h5, h6, h7, h8, h9⟩
    · cases h
  case viaSendClosed =>
    split at h
    · rename_i hv
      have hw : s.wg ≠ 0 := by rw [h2, hv]; simp [pending]
      have hc := closerOk_waiting s h3 hw
      simp [hc.2.2.2] at h
    · rename_i hv
      have hw : s.wg ≠ 0 := by rw [h2, hv]; simp [pending]
      have hc := closerOk_waiting s h3 hw
      simp [hc.2.2.1] at h
    · cases h
  case brasilSendClosed =>
    split at h
    · rename_i hv
      have hw : s.wg ≠ 0 := by rw [h2, hv]; simp [pending]
      have hc := closerOk_waiting s h3 hw
      simp [hc.2.2.2] at h
    · rename_i hv
      have hw : s.wg ≠ 0 := by rw [h2, hv]; simp [pending]
      have hc := closerOk_waiting s h3 hw
      simp [hc.2.1] at h
    · cases h

theorem inv_run (env : Env) (as : List Action) (s t : Sys) (hs : Inv env s)
    (h : run env as s = some t) : Inv env t := by
  induction as generalizing s with
  | nil =>
    simp only [run, Option.some.injEq] at h
    exact h ▸ hs
  | cons a as ih =>
    simp only [run] at h
    split at h
    · rename_i s1 h1
      exact ih s1 (inv_step env a s s1 hs h1) h
    · cases h

theorem inv_reachable (env : Env) (r : Request) (hr : r.valid) (s : Sys)
    (h : Reachable env (BuscaCEPHandler r) s) : Inv env s := by
  obtain ⟨as, has⟩ := h
  exact inv_run env as _ s (inv_init env r hr) has

/-! ## Frame lemmas -/

theorem returned_step (env : Env) (a : Action) (s t : Sys)
    (hr : s.handler = .returned) (h : step env a s = some t) :
    t.handler = .returned ∧ t.w = s.w := by
  unfold step at h
  split at h
  · cases h
  · cases a <;> simp only [hr] at h <;> (try split at h) <;> (try split at h) <;>
      first
        | (cases h; done)
        | (obtain rfl := Option.some.inj h; simp [hr])
        | (obtain rfl := Option.some.inj h
           simp only [wgDone]
           split <;> simp [hr])

theorem cep_step (env : Env) (a : Action) (s t : Sys)
    (h : step env a s = some t) : t.cep = s.cep := by
  unfold step at h
  split at h
  · cases h
  · cases a <;> simp only at h <;> (try split at h) <;> (try split at h) <;>
      (try split at h) <;>
      first
        | (cases h; done)
        | (obtain rfl := Option.some.inj h; rfl)
        | (obtain rfl := Option.some.inj h
           simp only [wgDone, handlerReturn]
           split <;> rfl)

theorem cep_run (env : Env) (as : List Action) (s t : Sys)
    (h : run env as s = some t) : t.cep = s.cep := by
  induction as generalizing s with
  | nil =>
    simp only [run, Option.some.injEq] at h
    exact h ▸ rfl
  | cons a as ih =>
    simp only [run] at h
    split at h
    · rename_i s1 h1
      exact (ih s1 h).trans (cep_step env a s s1 h1)
    · cases h

theorem cep_reachable (env : Env) (r : Request) (hr : r.valid) (s : Sys)
    (h : Reachable env (BuscaCEPHandler r) s) : s.cep = Values.Get r.query "cep" := by
  obtain ⟨as, has⟩ := h
  rw [cep_run env as _ s has]
  simp [BuscaCEPHandler, hr.1, hr.2]

theorem idle_step (env : Env) (a : Action) (s t : Sys) (hs : Idle s)
    (h : step env a s = some t) : Idle t ∧ t.w = s.w := by
  obtain ⟨h1, h2, h3, h4, h5, h6, h7, h8, h9, h10⟩ := hs
  simp only [step, h10, Bool.false_eq_true, ↓reduceIte] at h
  cases a <;> simp only [h1, h2, h3, h4] at h <;> (try split at h) <;>
    first
      | (cases h; done)
      | (obtain rfl := Option.some.inj h
         exact ⟨⟨rfl, rfl, rfl, rfl, h5, h6, h7, h8, h9, rfl⟩, rfl⟩)

theorem idle_run (env : Env) (as : List Action) (s t : Sys) (hs : Idle s)
    (h : run env as s = some t) : Idle t ∧ t.w = s.w := by
  induction as generalizing s with
  | nil =>
    simp only [run, Option.some.injEq] at h
    exact h ▸ ⟨hs, rfl⟩
  | cons a as ih =>
    simp only [run] at h
    split at h
    · rename_i s1 h1
      obtain ⟨hi, hw⟩ := idle_step env a s s1 hs h1
      obtain ⟨hi2, hw2⟩ := ih s1 hi h
      exact ⟨hi2, hw2.trans hw⟩
    · cases h

theorem idle_of_bad_path (r : Request) (h : r.path ≠ "/") :
    Idle (BuscaCEPHandler r) ∧ (BuscaCEPHandler r).w.status = some 404 := by
  simp only [BuscaCEPHandler, h, ne_eq, not_false_eq_true, ↓reduceIte]
  exact ⟨⟨rfl, rfl, rfl, rfl, rfl, rfl, rfl, rfl, rfl, rfl⟩, rfl⟩

theorem idle_of_no_cep (r : Request) (hp : r.path = "/")
    (hc : Values.Get r.query "cep" = "") :
    Idle (BuscaCEPHandler r) ∧ (BuscaCEPHandler r).w.status = some 400 := by
  simp only [BuscaCEPHandler, hp, hc, ne_eq, not_true_eq_false, ↓reduceIte]
  exact ⟨⟨rfl, rfl, rfl, rfl, rfl, rfl, rfl, rfl, rfl, rfl⟩, rfl⟩

/-! ## C1, C2: the two checks of the handler -/

/-- C1: a request with path `/` whose `cep` parameter is missing or empty is
answered with status 400 in every state of the run; neither provider client is
ever started and no outbound network call is made. -/
theorem missing_cep_is_rejected (env : Env) (r : Request) (s : Sys)
    (hp : r.path = "/") (hc : Values.Get r.query "cep" = "")
    (h : Reachable env (BuscaCEPHandler r) s) :
    s.handler = .returned ∧ s.w.status = some 400 ∧ s.via = .notStarted ∧
      s.brasil = .notStarted ∧ s.viaCalls = 0 ∧ s.brasilCalls = 0 := by
  obtain ⟨as, has⟩ := h
  obtain ⟨hi, h400⟩ := idle_of_no_cep r hp hc
  obtain ⟨ht, hw⟩ := idle_run env as _ s hi has
  exact ⟨ht.handler, by rw [hw, h400], ht.via, ht.brasil, ht.viaCalls, ht.brasilCalls⟩

/-- Witness of C1: the request `GET /?other=1`, one second later. -/
theorem missing_cep_is_rejected_witness :
    ∃ s, run envBothOk [.tick timeout] (BuscaCEPHandler ⟨"/", [("other", ["1"])]⟩) = some s ∧
      s.handler = .returned ∧ s.w.status = some 400 ∧ s.via = .notStarted ∧
      s.brasil = .notStarted ∧ s.viaCalls = 0 ∧ s.brasilCalls = 0 :=
  ⟨_, rfl, missing_cep_is_rejected envBothOk ⟨"/", [("other", ["1"])]⟩ _ rfl (by decide)
    ⟨[.tick timeout], rfl⟩⟩

/-- C2, as stated, fails: the request `GET /x?cep=01001000` is answered with
status 404 (`http.StatusNotFound`), not 400. -/
theorem bad_path_status_is_not_400 :
    (BuscaCEPHandler ⟨"/x", [("cep", ["01001000"])]⟩).w.status = some 404 ∧
      (BuscaCEPHandler ⟨"/x", [("cep", ["01001000"])]⟩).w.status ≠ some 400 := by
  decide

/-- C2, amended: a request whose path is not `/` is answered with status 404
in every state of the run, whatever its query parameters; neither provider
client is ever started and no outbound network call is made. -/
theorem bad_path_is_not_found (env : Env) (r : Request) (s : Sys)
    (hp : r.path ≠ "/") (h : Reachable env (BuscaCEPHandler r) s) :
    s.handler = .returned ∧ s.w.status = some 404 ∧ s.via = .notStarted ∧
      s.brasil = .notStarted ∧ s.viaCalls = 0 ∧ s.brasilCalls = 0 := by
  obtain ⟨as, has⟩ := h
  obtain ⟨hi, h404⟩ := idle_of_bad_path r hp
  obtain ⟨ht, hw⟩ := idle_run env as _ s hi has
  exact ⟨ht.handler, by rw [hw, h404], ht.via, ht.brasil, ht.viaCalls, ht.brasilCalls⟩

/-- Witness of the amended C2: the request `GET /x?cep=01001000`. -/
theorem bad_path_is_not_found_witness :
    ∃ s, run envBothOk [.tick timeout]
        (BuscaCEPHandler ⟨"/x", [("cep", ["01001000"])]⟩) = some s ∧
      s.handler = .returned ∧ s.w.status = some 404 ∧ s.via = .notStarted ∧
      s.brasil = .notStarted ∧ s.viaCalls = 0 ∧ s.brasilCalls = 0 :=
  ⟨_, rfl, bad_path_is_not_found envBothOk ⟨"/x", [("cep", ["01001000"])]⟩ _ (by decide)
    ⟨[.tick timeout], rfl⟩⟩

/-! ## C7, C9: what a provider client reports -/

/-- C7, as stated, fails: an answer with status 404 whose body decodes is
handed over as a success record by `BuscaCepBrasilApi` and by `BuscaCepViaCep`,
and returned without error by `BuscaCep`. -/
theorem non_2xx_is_reported_as_success :
    (upNotFound BrasilAPICep.zero).statusCode = 404 ∧
      BuscaCepBrasilApi (fun _ => upNotFound BrasilAPICep.zero) "00000000" =
        .success { BrasilAPICep.zero with Source := "BrasilAPI" } ∧
      BuscaCepViaCep (fun _ => upNotFound ViaCEP.zero) "00000000" =
        .success { ViaCEP.zero with Source := "ViaCEP" } ∧
      BuscaCep (fun _ => upNotFound ViaCEP.zero) "00000000" = .ok ViaCEP.zero :=
  ⟨rfl, rfl, rfl, rfl⟩

/-- C7, amended: each racing client hands over a success record exactly when
request construction, transport, body read and JSON decoding all succeeded, and
hands over a failure report when one of the four failed; the status code of the
answer plays no part.  `BuscaCep` returns a record only if building the
request, the transport and the body read succeeded. -/
theorem client_success_iff_all_calls_ok
    (getB : String → Upstream BrasilAPICep) (getV : String → Upstream ViaCEP)
    (cep : String) :
    (∀ r, BuscaCepBrasilApi getB cep = .success r ↔
        ((getB ("https://brasilapi.com.br/api/cep/v1/" ++ cep)).newRequestErr = none ∧
         (getB ("https://brasilapi.com.br/api/cep/v1/" ++ cep)).doErr = none ∧
         (getB ("https://brasilapi.com.br/api/cep/v1/" ++ cep)).readErr = none ∧
         (getB ("https://brasilapi.com.br/api/cep/v1/" ++ cep)).decoded.err = none ∧
         r = { (getB ("https://brasilapi.com.br/api/cep/v1/" ++ cep)).decoded.value with
                Source := "BrasilAPI" })) ∧
    (((getB ("https://brasilapi.com.br/api/cep/v1/" ++ cep)).newRequestErr ≠ none ∨
      (getB ("https://brasilapi.com.br/api/cep/v1/" ++ cep)).doErr ≠ none ∨
      (getB ("https://brasilapi.com.br/api/cep/v1/" ++ cep)).readErr ≠ none ∨
      (getB ("https://brasilapi.com.br/api/cep/v1/" ++ cep)).decoded.err ≠ none) →
      ∃ m, BuscaCepBrasilApi getB cep = .failure m) ∧
    (∀ r, BuscaCepViaCep getV cep = .success r ↔
        ((getV ("https://viacep.com.br/ws/" ++ cep ++ "/json/")).newRequestErr = none ∧
         (getV ("https://viacep.com.br/ws/" ++ cep ++ "/json/")).doErr = none ∧
         (getV ("https://viacep.com.br/ws/" ++ cep ++ "/json/")).readErr = none ∧
         (getV ("https://viacep.com.br/ws/" ++ cep ++ "/json/")).decoded.err = none ∧
         r = { (getV ("https://viacep.com.br/ws/" ++ cep ++ "/json/")).decoded.value with
                Source := "ViaCEP" })) ∧
    (((getV ("https://viacep.com.br/ws/" ++ cep ++ "/json/")).newRequestErr ≠ none ∨
      (getV ("https://viacep.com.br/ws/" ++ cep ++ "/json/")).doErr ≠ none ∨
      (getV ("https://viacep.com.br/ws/" ++ cep ++ "/json/")).readErr ≠ none ∨
      (getV ("https://viacep.com.br/ws/" ++ cep ++ "/json/")).decoded.err ≠ none) →
      ∃ m, BuscaCepViaCep getV cep = .failure m) ∧
    (∀ code, BuscaCepBrasilApi (fun url => { getB url with statusCode := code }) cep =
        BuscaCepBrasilApi getB cep) ∧
    (∀ code, BuscaCepViaCep (fun url => { getV url with statusCode := code }) cep =
        BuscaCepViaCep getV cep) ∧
    (∀ c, BuscaCep getV cep = .ok c →
        ((getV ("https://viacep.com.br/ws/" ++ cep ++ "/json/")).newRequestErr = none ∧
         (getV ("https://viacep.com.br/ws/" ++ cep ++ "/json/")).doErr = none ∧
         (getV ("https://viacep.com.br/ws/" ++ cep ++ "/json/")).readErr = none)) := by
  refine ⟨fun r => ?_, ?_, fun r => ?_, ?_, fun code => rfl, fun code => rfl, fun c => ?_⟩
  · simp only [BuscaCepBrasilApi]
    split
    · simp_all
    · split
      · simp_all
      · split
        · simp_all
        · split
          · simp_all
          · simp_all [eq_comm]
  · simp only [BuscaCepBrasilApi]
    split
    · simp
    · split
      · simp
      · split
        · simp
        · split
          · simp
          · simp_all
  · simp only [BuscaCepViaCep]
    split
    · simp_all
    · split
      · simp_all
      · split
        · simp_all
        · split
          · simp_all
          · simp_all [eq_comm]
  · simp only [BuscaCepViaCep]
    split
    · simp
    · split
      · simp
      · split
        · simp
        · split
          · simp
          · simp_all
  · simp only [BuscaCep]
    split
    · simp_all
    · split
      · simp_all
      · split
        · simp_all
        · simp_all

/-- Witness of the amended C7: an answer with status 503 whose body is not JSON
is handed over as a failure report by both racing clients. -/
theorem client_success_iff_all_calls_ok_witness :
    (∃ m, BuscaCepBrasilApi
        (fun _ => ⟨none, none, 503, none,
          ⟨some "unexpected end of JSON input", BrasilAPICep.zero⟩⟩)
        "01001000" = .failure m) ∧
    (∃ m, BuscaCepViaCep
        (fun _ => ⟨none, none, 503, none,
          ⟨some "unexpected end of JSON input", ViaCEP.zero⟩⟩)
        "01001000" = .failure m) :=
  ⟨(client_success_iff_all_calls_ok
      (fun _ => ⟨none, none, 503, none,
        ⟨some "unexpected end of JSON input", BrasilAPICep.zero⟩⟩)
      (fun _ => ⟨none, none, 503, none,
        ⟨some "unexpected end of JSON input", ViaCEP.zero⟩⟩)
      "01001000").2.1 (by decide),
   (client_success_iff_all_calls_ok
      (fun _ => ⟨none, none, 503, none,
        ⟨some "unexpected end of JSON input", BrasilAPICep.zero⟩⟩)
      (fun _ => ⟨none, none, 503, none,
        ⟨some "unexpected end of JSON input", ViaCEP.zero⟩⟩)
      "01001000").2.2.2.1 (by decide)⟩

/-- C9 fails for `BuscaCepViaCep`: its failure report for a request that could
not be built is the same text as its report for a transport failure, so the
two stages cannot be told apart from the message. -/
theorem viacep_construct_and_transport_reports_coincide (e : String)
    (u : Upstream ViaCEP) (cep : String) :
    erroViaCEP .construct e = erroViaCEP .transport e ∧
      BuscaCepViaCep (fun _ => { u with newRequestErr := some e }) cep =
        BuscaCepViaCep (fun _ => { u with newRequestErr := none, doErr := some e }) cep :=
  ⟨rfl, rfl⟩

theorem append_left_ne (a b e1 e2 : String) (n : Nat)
    (h : a.data.take n ≠ b.data.take n) (ha : n ≤ a.data.length)
    (hb : n ≤ b.data.length) : a ++ e1 ≠ b ++ e2 := by
  intro he
  apply h
  have := congrArg (fun x => x.data.take n) he
  simpa [String.data_append, List.take_append_of_le_length ha,
    List.take_append_of_le_length hb] using this

/-- The four reports of `BuscaCepBrasilApi` are pairwise distinct, whatever the
wrapped errors are. -/
theorem brasilapi_reports_distinct (s1 s2 : Stage) (e1 e2 : String) (h : s1 ≠ s2) :
    erroBrasilAPI s1 e1 ≠ erroBrasilAPI s2 e2 := by
  cases s1 <;> cases s2 <;> first
    | exact absurd rfl h
    | exact append_left_ne _ _ e1 e2 15 (by decide) (by decide) (by decide)

/-- The reports of `BuscaCepViaCep` for a body-read failure, for a decode
failure and for the two request stages are pairwise distinct. -/
theorem viacep_reports_distinct (s1 s2 : Stage) (e1 e2 : String) (h : s1 ≠ s2)
    (h1 : ¬ (s1 = .construct ∧ s2 = .transport))
    (h2 : ¬ (s1 = .transport ∧ s2 = .construct)) :
    erroViaCEP s1 e1 ≠ erroViaCEP s2 e2 := by
  cases s1 <;> cases s2 <;> first
    | exact absurd rfl h
    | exact append_left_ne _ _ e1 e2 15 (by decide) (by decide) (by decide)
    | exact (h1 (And.intro rfl rfl)).elim
    | exact (h2 (And.intro rfl rfl)).elim

/-- The helper `BuscaCep` returns the record and no error when
`json.Unmarshal` failed. -/
theorem buscaCep_discards_decode_error :
    BuscaCep (fun _ => ⟨none, none, 200, none,
      ⟨some "unexpected end of JSON input", ViaCEP.zero⟩⟩) "01001000" = .ok ViaCEP.zero :=
  rfl

/-! ## The responses of the four select cases -/

theorem respondBrasil_fresh (q : String → String) (r : BrasilAPICep) :
    respondBrasil q ResponseWriter.fresh r =
      ⟨[("Content-Type", "application/json")], some 200, marshalBrasilAPICep q r⟩ := by
  simp [respondBrasil, ResponseWriter.fresh, ResponseWriter.setHeader,
    ResponseWriter.Write, ResponseWriter.WriteHeader]

theorem respondVia_fresh (q : String → String) (r : ViaCEP) :
    respondVia q ResponseWriter.fresh r =
      ⟨[("Content-Type", "application/json")], some 200, marshalViaCEP q r⟩ := by
  simp [respondVia, ResponseWriter.fresh, ResponseWriter.setHeader,
    ResponseWriter.Write, ResponseWriter.WriteHeader]

theorem respondErr_fresh (e : Option String) :
    respondErr ResponseWriter.fresh e =
      ⟨[("X-Content-Type-Options", "nosniff"),
        ("Content-Type", "text/plain; charset=utf-8")], some 500,
        "Erro: " ++ fmtV e ++ "\n"⟩ := by
  simp [respondErr, httpError, ResponseWriter.fresh, ResponseWriter.setHeader,
    ResponseWriter.delHeader, ResponseWriter.Write, ResponseWriter.WriteHeader]

theorem respondTimeout_fresh :
    respondTimeout ResponseWriter.fresh =
      ⟨[("X-Content-Type-Options", "nosniff"),
        ("Content-Type", "text/plain; charset=utf-8")], some 408, "Timeout\n"⟩ := by
  decide

/-! ## The steps of the handler at its select -/

theorem step_recvBrasil (env : Env) (s : Sys) (r : BrasilAPICep)
    (hp : s.panicked = false) (ha : s.handler = .atSelect) (hb : s.brasil = .sendRes r) :
    step env .recvBrasil s =
      some (handlerReturn (wgDone { s with brasil := .finished })
        (respondBrasil env.quote s.w r)) := by
  simp [step, hp, ha, hb]

theorem step_recvVia (env : Env) (s : Sys) (r : ViaCEP)
    (hp : s.panicked = false) (ha : s.handler = .atSelect) (hb : s.via = .sendRes r) :
    step env .recvVia s =
      some (handlerReturn (wgDone { s with via := .finished })
        (respondVia env.quote s.w r)) := by
  simp [step, hp, ha, hb]

theorem step_recvErrVia (env : Env) (s : Sys) (m : String)
    (hp : s.panicked = false) (ha : s.handler = .atSelect) (hb : s.via = .sendErr m) :
    step env .recvErrVia s =
      some (handlerReturn (wgDone { s with via := .finished })
        (respondErr s.w (some m))) := by
  simp [step, hp, ha, hb]

theorem step_recvErrBrasil (env : Env) (s : Sys) (m : String)
    (hp : s.panicked = false) (ha : s.handler = .atSelect) (hb : s.brasil = .sendErr m) :
    step env .recvErrBrasil s =
      some (handlerReturn (wgDone { s with brasil := .finished })
        (respondErr s.w (some m))) := by
  simp [step, hp, ha, hb]

theorem step_recvDone (env : Env) (s : Sys)
    (hp : s.panicked = false) (ha : s.handler = .atSelect) (hd : ctxDone s = true) :
    step env .recvDone s = some (handlerReturn s (respondTimeout s.w)) := by
  simp [step, hp, ha, hd]

theorem returned_run (env : Env) (as : List Action) (s t : Sys)
    (hr : s.handler = .returned) (h : run env as s = some t) :
    t.handler = .returned ∧ t.w = s.w := by
  induction as generalizing s with
  | nil =>
    simp only [run, Option.some.injEq] at h
    exact h ▸ ⟨hr, rfl⟩
  | cons a as ih =>
    simp only [run] at h
    split at h
    · rename_i s1 h1
      obtain ⟨hr1, hw1⟩ := returned_step env a s s1 hr h1
      obtain ⟨hr2, hw2⟩ := ih s1 hr1 h
      exact ⟨hr2, hw2.trans hw1⟩
    · cases h

/-- C4, as stated, fails: ViaCEP is unreachable and BrasilAPI answers.  In the
first run the failure report of ViaCEP is the first event the handler's select
takes and BrasilAPI has its record decoded afterwards, before the deadline; in
the second run the record of BrasilAPI is already on offer when the select
takes the failure report.  In both the response is 500 and stays 500. -/
theorem single_failure_decides_the_race :
    (∃ s, run envViaDown [.viaFetch, .recvErrVia, .brasilFetch]
        (BuscaCEPHandler sampleRequest) = some s ∧
      s.handler = .returned ∧ s.w.status = some 500 ∧
      s.brasil = .sendRes { sampleBrasil with Source := "BrasilAPI" } ∧
      s.fired = false ∧ s.now < timeout ∧
      ∀ u, Reachable envViaDown s u → u.w.status = some 500) ∧
    (∃ s t, run envViaDown [.brasilFetch, .viaFetch] (BuscaCEPHandler sampleRequest) = some s ∧
      s.handler = .atSelect ∧
      s.brasil = .sendRes { sampleBrasil with Source := "BrasilAPI" } ∧
      s.fired = false ∧ s.now < timeout ∧
      step envViaDown .recvErrVia s = some t ∧
      t.handler = .returned ∧ t.w.status = some 500 ∧
      ∀ u, Reachable envViaDown t u → u.w.status = some 500) := by
  refine ⟨⟨_, rfl, rfl, rfl, rfl, rfl, by decide, ?_⟩,
    ⟨_, _, rfl, rfl, rfl, rfl, by decide, rfl, rfl, rfl, ?_⟩⟩
  · rintro u ⟨as, has⟩
    rw [(returned_run envViaDown as _ u rfl has).2]
    rfl
  · rintro u ⟨as, has⟩
    rw [(returned_run envViaDown as _ u rfl has).2]
    rfl

/-- C4, amended: in a run of a valid request, the event the handler's select
takes decides the race.  When a provider client offers a failure report the
select can take it, whatever the other client does, and then the answer is 500
with body `Erro: <report>`; when a provider client offers a record the select
can take it, and then the answer is 200 with that record.  In both cases the
response stays as written for the rest of the run. -/
theorem first_taken_event_decides (env : Env) (r : Request) (s : Sys)
    (mv mb : String) (rb : BrasilAPICep) (rv : ViaCEP)
    (hr : r.valid) (h : Reachable env (BuscaCEPHandler r) s)
    (ha : s.handler = .atSelect) :
    (s.via = .sendErr mv →
      ∃ t, step env .recvErrVia s = some t ∧ t.w.status = some 500 ∧
        t.w.body = "Erro: " ++ mv ++ "\n" ∧ ∀ u, Reachable env t u → u.w = t.w) ∧
    (s.brasil = .sendErr mb →
      ∃ t, step env .recvErrBrasil s = some t ∧ t.w.status = some 500 ∧
        t.w.body = "Erro: " ++ mb ++ "\n" ∧ ∀ u, Reachable env t u → u.w = t.w) ∧
    (s.via = .sendRes rv →
      ∃ t, step env .recvVia s = some t ∧ t.w.status = some 200 ∧
        t.w.body = marshalViaCEP env.quote rv ∧ ∀ u, Reachable env t u → u.w = t.w) ∧
    (s.brasil = .sendRes rb →
      ∃ t, step env .recvBrasil s = some t ∧ t.w.status = some 200 ∧
        t.w.body = marshalBrasilAPICep env.quote rb ∧
        ∀ u, Reachable env t u → u.w = t.w) := by
  have hs := inv_reachable env r hr s h
  have hw := (hs.fresh ha).1
  have fin : ∀ (t : Sys), t.handler = .returned → ∀ u, Reachable env t u → u.w = t.w :=
    fun t ht u ⟨as, has⟩ => (returned_run env as t u ht has).2
  refine ⟨fun hv => ?_, fun hb => ?_, fun hv => ?_, fun hb => ?_⟩
  · refine ⟨_, step_recvErrVia env s mv hs.noPanic ha hv, ?_, ?_, fin _ rfl⟩ <;>
      first
        | (simp only [handlerReturn, hw, respondErr_fresh]; done)
        | (simp only [handlerReturn, hw, respondErr_fresh]; rfl)
  · refine ⟨_, step_recvErrBrasil env s mb hs.noPanic ha hb, ?_, ?_, fin _ rfl⟩ <;>
      first
        | (simp only [handlerReturn, hw, respondErr_fresh]; done)
        | (simp only [handlerReturn, hw, respondErr_fresh]; rfl)
  · refine ⟨_, step_recvVia env s rv hs.noPanic ha hv, ?_, ?_, fin _ rfl⟩ <;>
      simp only [handlerReturn, hw, respondVia_fresh]
  · refine ⟨_, step_recvBrasil env s rb hs.noPanic ha hb, ?_, ?_, fin _ rfl⟩ <;>
      simp only [handlerReturn, hw, respondBrasil_fresh]

/-- Witness of the amended C4: ViaCEP is unreachable, BrasilAPI answers, and
both outcomes are on offer when the handler's select runs. -/
theorem first_taken_event_decides_witness :
    ∃ s, run envViaDown [.brasilFetch, .viaFetch] (BuscaCEPHandler sampleRequest) = some s ∧
      (∃ t, step envViaDown .recvErrVia s = some t ∧ t.w.status = some 500 ∧
        t.w.body =
          "Erro: " ++ "erro ao fazer a requisição na ViaCEP: dial tcp: connection refused" ++
            "\n" ∧
        ∀ u, Reachable envViaDown t u → u.w = t.w) ∧
      (∃ t, step envViaDown .recvBrasil s = some t ∧ t.w.status = some 200 ∧
        t.w.body = marshalBrasilAPICep quotePlain
          { sampleBrasil with Source := "BrasilAPI" } ∧
        ∀ u, Reachable envViaDown t u → u.w = t.w) :=
  ⟨_, rfl,
    (first_taken_event_decides envViaDown sampleRequest _
      "erro ao fazer a requisição na ViaCEP: dial tcp: connection refused" ""
      { sampleBrasil with Source := "BrasilAPI" } ViaCEP.zero
      (by decide) ⟨[.brasilFetch, .viaFetch], rfl⟩ rfl).1 rfl,
    (first_taken_event_decides envViaDown sampleRequest _
      "erro ao fazer a requisição na ViaCEP: dial tcp: connection refused" ""
      { sampleBrasil with Source := "BrasilAPI" } ViaCEP.zero
      (by decide) ⟨[.brasilFetch, .viaFetch], rfl⟩ rfl).2.2.2 rfl⟩

/-! ## C5: both providers fail -/

theorem via_offer_is_failure (env : Env) (s : Sys) (hs : Inv env s)
    (m : String) (h : s.via = .sendErr m) :
    BuscaCepViaCep env.viacep s.cep = .failure m := by
  rcases hs.via with h1 | h1 | h1
  · rw [h1] at h; cases h
  · rw [h1] at h
    cases ho : BuscaCepViaCep env.viacep s.cep with
    | failure m1 => rw [ho] at h; cases h; rfl
    | success r1 => rw [ho] at h; cases h
  · rw [h1] at h; cases h

theorem brasil_offer_is_failure (env : Env) (s : Sys) (hs : Inv env s)
    (m : String) (h : s.brasil = .sendErr m) :
    BuscaCepBrasilApi env.brasilapi s.cep = .failure m := by
  rcases hs.brasil with h1 | h1 | h1
  · rw [h1] at h; cases h
  · rw [h1] at h
    cases ho : BuscaCepBrasilApi env.brasilapi s.cep with
    | failure m1 => rw [ho] at h; cases h; rfl
    | success r1 => rw [ho] at h; cases h
  · rw [h1] at h; cases h

/-- C5, as stated, fails: both services are unreachable and both failure
reports are on offer, before the deadline, when the handler's select takes the
report of ViaCEP and answers 500.  Two runs that differ only in the failure of
BrasilAPI end with the same response, so the failure description of BrasilAPI
cannot be recovered from it. -/
theorem second_failure_is_not_in_the_response :
    ∃ s1 s2,
      run (envBothDown "i/o timeout") [.viaFetch, .brasilFetch, .recvErrVia]
        (BuscaCEPHandler sampleRequest) = some s1 ∧
      run (envBothDown "no route to host") [.viaFetch, .brasilFetch, .recvErrVia]
        (BuscaCEPHandler sampleRequest) = some s2 ∧
      s1.brasil = .sendErr "erro ao fazer a requisição na BrasilAPI: i/o timeout" ∧
      s2.brasil = .sendErr "erro ao fazer a requisição na BrasilAPI: no route to host" ∧
      s1.handler = .returned ∧ s2.handler = .returned ∧
      s1.fired = false ∧ s2.fired = false ∧
      s1.w.status = some 500 ∧ s1.w = s2.w ∧
      s1.w.body =
        "Erro: erro ao fazer a requisição na ViaCEP: dial tcp: connection refused\n" :=
  ⟨_, _, rfl, rfl, rfl, rfl, rfl, rfl, rfl, rfl, rfl, rfl, by decide⟩

/-- C5, amended: in a run of a valid request in which both provider clients
fail, with reports `mv` (ViaCEP) and `mb` (BrasilAPI), and the deadline has not
expired: the handler's select can take a report as soon as one is on offer, it
can take nothing else, and taking one answers 500 with the body `Erro: `
followed by that one report. -/
theorem both_fail_one_report_served (env : Env) (r : Request) (s : Sys)
    (mv mb : String)
    (hr : r.valid) (h : Reachable env (BuscaCEPHandler r) s)
    (ha : s.handler = .atSelect) (hf : s.fired = false)
    (hv : BuscaCepViaCep env.viacep (Values.Get r.query "cep") = .failure mv)
    (hb : BuscaCepBrasilApi env.brasilapi (Values.Get r.query "cep") = .failure mb) :
    (s.via = .sendErr mv →
      ∃ t, step env .recvErrVia s = some t ∧ t.w.body = "Erro: " ++ mv ++ "\n") ∧
    (s.brasil = .sendErr mb →
      ∃ t, step env .recvErrBrasil s = some t ∧ t.w.body = "Erro: " ++ mb ++ "\n") ∧
    ∀ a t, a.isHandler = true → step env a s = some t →
      t.handler = .returned ∧ t.w.status = some 500 ∧
      ((a = .recvErrVia ∧ t.w.body = "Erro: " ++ mv ++ "\n") ∨
       (a = .recvErrBrasil ∧ t.w.body = "Erro: " ++ mb ++ "\n")) := by
  have hs := inv_reachable env r hr s h
  obtain ⟨hw, hc⟩ := hs.fresh ha
  rw [← cep_reachable env r hr s h] at hv hb
  have hvia : s.via = .started ∨ s.via = .sendErr mv := by
    rcases hs.via with h1 | h1 | h1
    · exact Or.inl h1
    · rw [hv] at h1; exact Or.inr h1
    · have := hs.viaGone ha h1
      rw [hf] at this; cases this
  have hbr : s.brasil = .started ∨ s.brasil = .sendErr mb := by
    rcases hs.brasil with h1 | h1 | h1
    · exact Or.inl h1
    · rw [hb] at h1; exact Or.inr h1
    · have := hs.brasilGone ha h1
      rw [hf] at this; cases this
  have hwg : s.wg ≠ 0 := by
    rw [hs.wgCount]
    rcases hvia with h1 | h1 <;> simp [h1, pending]
  obtain ⟨-, c1, c2, c3⟩ := closerOk_waiting s hs.closer hwg
  have b1 : (handlerReturn (wgDone { s with via := .finished })
      (respondErr s.w (some mv))).w.body = "Erro: " ++ mv ++ "\n" := by
    simp only [handlerReturn, hw, respondErr_fresh]; rfl
  have b2 : (handlerReturn (wgDone { s with brasil := .finished })
      (respondErr s.w (some mb))).w.body = "Erro: " ++ mb ++ "\n" := by
    simp only [handlerReturn, hw, respondErr_fresh]; rfl
  refine ⟨fun h1 => ⟨_, step_recvErrVia env s mv hs.noPanic ha h1, b1⟩,
    fun h1 => ⟨_, step_recvErrBrasil env s mb hs.noPanic ha h1, b2⟩, ?_⟩
  intro a t hh hst
  cases a <;> simp only [Action.isHandler, Bool.false_eq_true] at hh
  · rcases hbr with h1 | h1 <;> simp [step, hs.noPanic, ha, h1, c1] at hst
  · rcases hvia with h1 | h1 <;> simp [step, hs.noPanic, ha, h1, c2] at hst
  · rcases hvia with h1 | h1
    · simp [step, hs.noPanic, ha, h1] at hst
    · rw [step_recvErrVia env s mv hs.noPanic ha h1] at hst
      obtain rfl := Option.some.inj hst
      refine ⟨rfl, ?_, Or.inl ⟨rfl, b1⟩⟩
      simp only [handlerReturn, hw, respondErr_fresh]
  · rcases hbr with h1 | h1
    · simp [step, hs.noPanic, ha, h1] at hst
    · rw [step_recvErrBrasil env s mb hs.noPanic ha h1] at hst
      obtain rfl := Option.some.inj hst
      refine ⟨rfl, ?_, Or.inr ⟨rfl, b2⟩⟩
      simp only [handlerReturn, hw, respondErr_fresh]
  · simp [step, hs.noPanic, ha, c3] at hst
  · simp [step, hs.noPanic, ha, ctxDone, hf, hc] at hst

/-- Witness of the amended C5: both services are unreachable and the report of
ViaCEP is on offer. -/
theorem both_fail_one_report_served_witness :
    ∃ s, run (envBothDown "i/o timeout") [.viaFetch] (BuscaCEPHandler sampleRequest) = some s ∧
      (∃ t, step (envBothDown "i/o timeout") .recvErrVia s = some t ∧
        t.w.body =
          "Erro: " ++ "erro ao fazer a requisição na ViaCEP: dial tcp: connection refused" ++
            "\n") ∧
      ∀ a t, a.isHandler = true → step (envBothDown "i/o timeout") a s = some t →
        t.handler = .returned ∧ t.w.status = some 500 ∧
        ((a = .recvErrVia ∧ t.w.body =
            "Erro: " ++ "erro ao fazer a requisição na ViaCEP: dial tcp: connection refused" ++
              "\n") ∨
         (a = .recvErrBrasil ∧ t.w.body =
            "Erro: " ++ "erro ao fazer a requisição na BrasilAPI: i/o timeout" ++ "\n")) :=
  ⟨_, rfl,
    (both_fail_one_report_served (envBothDown "i/o timeout") sampleRequest _
      "erro ao fazer a requisição na ViaCEP: dial tcp: connection refused"
      "erro ao fazer a requisição na BrasilAPI: i/o timeout"
      (by decide) ⟨[.viaFetch], rfl⟩ rfl rfl rfl rfl).1 rfl,
    (both_fail_one_report_served (envBothDown "i/o timeout") sampleRequest _
      "erro ao fazer a requisição na ViaCEP: dial tcp: connection refused"
      "erro ao fazer a requisição na BrasilAPI: i/o timeout"
      (by decide) ⟨[.viaFetch], rfl⟩ rfl rfl rfl rfl).2.2⟩

/-! ## The body of the timeout response -/

theorem marshalBrasilAPICep_head (q : String → String) (r : BrasilAPICep) :
    (marshalBrasilAPICep q r).data.head? = some (Char.ofNat 123) := by
  simp [marshalBrasilAPICep, String.data_append]

theorem marshalViaCEP_head (q : String → String) (r : ViaCEP) :
    (marshalViaCEP q r).data.head? = some (Char.ofNat 123) := by
  simp [marshalViaCEP, String.data_append]

theorem timeout_body_has_no_field :
    ∀ f ∈ jsonFieldNames, ¬ f.data <:+: "Timeout\n".data := by
  decide

/-! ## C8: a failure report after the race is decided -/

theorem via_sendErr_step (env : Env) (a : Action) (s t : Sys) (m : String)
    (hr : s.handler = .returned) (hv : s.via = .sendErr m)
    (h : step env a s = some t) : t.via = .sendErr m := by
  unfold step at h
  split at h
  · cases h
  · cases a <;> simp only [hr, hv] at h <;> (try split at h) <;> (try split at h) <;>
      first
        | (cases h; done)
        | (obtain rfl := Option.some.inj h; simp [hv])
        | (obtain rfl := Option.some.inj h
           simp only [wgDone]
           split <;> simp [hv])

theorem brasil_sendErr_step (env : Env) (a : Action) (s t : Sys) (m : String)
    (hr : s.handler = .returned) (hv : s.brasil = .sendErr m)
    (h : step env a s = some t) : t.brasil = .sendErr m := by
  unfold step at h
  split at h
  · cases h
  · cases a <;> simp only [hr, hv] at h <;> (try split at h) <;> (try split at h) <;>
      first
        | (cases h; done)
        | (obtain rfl := Option.some.inj h; simp [hv])
        | (obtain rfl := Option.some.inj h
           simp only [wgDone]
           split <;> simp [hv])

/-- Once the handler has returned, a client standing at `errCh <- ...` stays
there in every later state, and with it the closing goroutine stays at
`wg.Wait()` and no channel is ever closed. -/
theorem via_blocked_forever (env : Env) (as : List Action) (s t : Sys) (m : String)
    (hs : Inv env s) (hr : s.handler = .returned) (hv : s.via = .sendErr m)
    (h : run env as s = some t) :
    t.handler = .returned ∧ t.via = .sendErr m ∧ t.closer = .waiting ∧
      t.closedErr = false := by
  induction as generalizing s with
  | nil =>
    simp only [run, Option.some.injEq] at h
    subst h
    have hwg : s.wg ≠ 0 := by rw [hs.wgCount, hv]; simp [pending]
    obtain ⟨c0, -, -, c3⟩ := closerOk_waiting s hs.closer hwg
    exact ⟨hr, hv, c0, c3⟩
  | cons a as ih =>
    simp only [run] at h
    split at h
    · rename_i s1 h1
      exact ih s1 (inv_step env a s s1 hs h1) (returned_step env a s s1 hr h1).1
        (via_sendErr_step env a s s1 m hr hv h1) h
    · cases h

theorem brasil_blocked_forever (env : Env) (as : List Action) (s t : Sys) (m : String)
    (hs : Inv env s) (hr : s.handler = .returned) (hv : s.brasil = .sendErr m)
    (h : run env as s = some t) :
    t.handler = .returned ∧ t.brasil = .sendErr m ∧ t.closer = .waiting ∧
      t.closedErr = false := by
  induction as generalizing s with
  | nil =>
    simp only [run, Option.some.injEq] at h
    subst h
    have hwg : s.wg ≠ 0 := by rw [hs.wgCount, hv]; simp [pending]
    obtain ⟨c0, -, -, c3⟩ := closerOk_waiting s hs.closer hwg
    exact ⟨hr, hv, c0, c3⟩
  | cons a as ih =>
    simp only [run] at h
    split at h
    · rename_i s1 h1
      exact ih s1 (inv_step env a s s1 hs h1) (returned_step env a s s1 hr h1).1
        (brasil_sendErr_step env a s s1 m hr hv h1) h
    · cases h

/-- C8 fails on the error pathway: BrasilAPI answers, the handler takes its
record, answers 200 and returns, and the deferred `cancel()` runs; the pending
call of `BuscaCepViaCep` then fails with `context canceled`.  From then on
`BuscaCepViaCep` stands at its plain send `errCh <- ...` in every state of the
run, the closing goroutine stands at `wg.Wait()`, and `errCh` is never closed. -/
theorem failure_report_after_decision_blocks_forever :
    ∃ s, run envViaCanceled [.brasilFetch, .recvBrasil, .viaFetch]
        (BuscaCEPHandler sampleRequest) = some s ∧
      s.handler = .returned ∧ s.cancelled = true ∧ s.w.status = some 200 ∧
      s.brasil = .finished ∧
      ∀ t, Reachable envViaCanceled s t →
        t.via = .sendErr "erro ao fazer a requisição na ViaCEP: context canceled" ∧
        t.closer = .waiting ∧ t.closedErr = false := by
  refine ⟨_, rfl, rfl, rfl, rfl, rfl, ?_⟩
  rintro t ⟨as, has⟩
  have hi : Inv envViaCanceled (BuscaCEPHandler sampleRequest) :=
    inv_init envViaCanceled sampleRequest (by decide)
  have hs := inv_run envViaCanceled [.brasilFetch, .recvBrasil, .viaFetch] _ _ hi rfl
  exact (via_blocked_forever envViaCanceled as _ t _ hs rfl rfl has).2

/-! ## C10: closing the channels -/

theorem idle_of_invalid (r : Request) (h : ¬ r.valid) : Idle (BuscaCEPHandler r) := by
  by_cases hp : r.path = "/"
  · by_cases hc : Values.Get r.query "cep" = ""
    · exact (idle_of_no_cep r hp hc).1
    · exact absurd ⟨hp, hc⟩ h
  · exact (idle_of_bad_path r hp).1

theorem finished_of_pending {α : Type} (c : Client α) (h : pending c = 0) :
    c = .finished := by
  cases c <;> simp [pending] at h ⊢

theorem finished_of_closing (env : Env) (s : Sys) (hs : Inv env s)
    (h : s.closedBrasil = true ∨ s.closedVia = true ∨ s.closedErr = true ∨
      s.closer ≠ .waiting) :
    s.via = .finished ∧ s.brasil = .finished := by
  have hwg : s.wg = 0 := by
    by_contra hne
    obtain ⟨c0, c1, c2, c3⟩ := closerOk_waiting s hs.closer hne
    rcases h with h | h | h | h
    · rw [c1] at h; cases h
    · rw [c2] at h; cases h
    · rw [c3] at h; cases h
    · exact h c0
  have hc := hs.wgCount
  rw [hwg] at hc
  exact ⟨finished_of_pending _ (by omega), finished_of_pending _ (by omega)⟩

theorem no_send_on_closed_via (env : Env) (s : Sys) (hs : Inv env s) :
    step env .viaSendClosed s = none := by
  simp only [step, hs.noPanic, Bool.false_eq_true, ↓reduceIte]
  split
  · rename_i hv
    have hwg : s.wg ≠ 0 := by rw [hs.wgCount, hv]; simp [pending]
    simp [(closerOk_waiting s hs.closer hwg).2.2.2]
  · rename_i hv
    have hwg : s.wg ≠ 0 := by rw [hs.wgCount, hv]; simp [pending]
    simp [(closerOk_waiting s hs.closer hwg).2.2.1]
  · rfl

theorem no_send_on_closed_brasil (env : Env) (s : Sys) (hs : Inv env s) :
    step env .brasilSendClosed s = none := by
  simp only [step, hs.noPanic, Bool.false_eq_true, ↓reduceIte]
  split
  · rename_i hv
    have hwg : s.wg ≠ 0 := by rw [hs.wgCount, hv]; simp [pending]
    simp [(closerOk_waiting s hs.closer hwg).2.2.2]
  · rename_i hv
    have hwg : s.wg ≠ 0 := by rw [hs.wgCount, hv]; simp [pending]
    simp [(closerOk_waiting s hs.closer hwg).2.1]
  · rfl

/-- C10, as stated, fails in its last part: both clients have decoded a record
and offer it, the deadline expires before the handler's select has run, both
clients take their `ctx.Done()` case and finish, and the closing goroutine
closes the three channels while the handler still stands at its select with
nothing written. -/
theorem channels_closed_before_selection :
    ∃ s, run envBothOk
        [.viaFetch, .brasilFetch, .tick timeout, .timerFire, .viaAbandon, .brasilAbandon,
         .closerStep, .closerStep, .closerStep, .closerStep]
        (BuscaCEPHandler sampleRequest) = some s ∧
      s.handler = .atSelect ∧ s.w = ResponseWriter.fresh ∧ s.closer = .finished ∧
      s.closedBrasil = true ∧ s.closedVia = true ∧ s.closedErr = true ∧
      s.via = .finished ∧ s.brasil = .finished :=
  ⟨_, rfl, rfl, rfl, rfl, rfl, rfl, rfl, rfl, rfl⟩

/-- C10, amended: in every state of every run of the handler, a channel is
closed (or the closing goroutine is past `wg.Wait()`) only when both provider
clients have finished; no goroutine has panicked and no client can send on a
closed channel; a handler standing at its select can take a case as soon as
the context is done or a client offers an outcome, whatever the closing
goroutine has done; and the closing goroutine is past `wg.Wait()` before the
handler's select has run only when the deadline has expired. -/
theorem channels_close_after_clients_finish (env : Env) (r : Request) (s : Sys)
    (h : Reachable env (BuscaCEPHandler r) s) :
    ((s.closedBrasil = true ∨ s.closedVia = true ∨ s.closedErr = true ∨
        s.closer = .closeBrasil ∨ s.closer = .closeVia ∨ s.closer = .closeErr ∨
        s.closer = .finished) →
      s.via = .finished ∧ s.brasil = .finished) ∧
    s.panicked = false ∧
    step env .viaSendClosed s = none ∧
    step env .brasilSendClosed s = none ∧
    (s.handler = .atSelect →
      (ctxDone s = true → ∃ t, step env .recvDone s = some t) ∧
      (∀ m, s.via = .sendErr m → ∃ t, step env .recvErrVia s = some t) ∧
      (∀ m, s.brasil = .sendErr m → ∃ t, step env .recvErrBrasil s = some t) ∧
      (∀ rv, s.via = .sendRes rv → ∃ t, step env .recvVia s = some t) ∧
      (∀ rb, s.brasil = .sendRes rb → ∃ t, step env .recvBrasil s = some t)) ∧
    (s.handler = .atSelect →
      (s.closedBrasil = true ∨ s.closedVia = true ∨ s.closedErr = true ∨
        s.closer ≠ .waiting) →
      s.fired = true ∧ timeout ≤ s.now) := by
  by_cases hv : r.valid
  · have hs := inv_reachable env r hv s h
    refine ⟨?_, hs.noPanic, no_send_on_closed_via env s hs,
      no_send_on_closed_brasil env s hs, fun ha => ⟨?_, ?_, ?_, ?_, ?_⟩, ?_⟩
    · intro hc
      apply finished_of_closing env s hs
      rcases hc with hc | hc | hc | hc | hc | hc | hc
      · exact Or.inl hc
      · exact Or.inr (Or.inl hc)
      · exact Or.inr (Or.inr (Or.inl hc))
      all_goals exact Or.inr (Or.inr (Or.inr (by rw [hc]; simp)))
    · exact fun hd => ⟨_, step_recvDone env s hs.noPanic ha hd⟩
    · exact fun m hm => ⟨_, step_recvErrVia env s m hs.noPanic ha hm⟩
    · exact fun m hm => ⟨_, step_recvErrBrasil env s m hs.noPanic ha hm⟩
    · exact fun rv hm => ⟨_, step_recvVia env s rv hs.noPanic ha hm⟩
    · exact fun rb hm => ⟨_, step_recvBrasil env s rb hs.noPanic ha hm⟩
    · intro ha hc
      have hf := hs.viaGone ha (finished_of_closing env s hs hc).1
      exact ⟨hf, hs.late hf⟩
  · obtain ⟨as, has⟩ := h
    obtain ⟨hi, -⟩ := idle_run env as _ s (idle_of_invalid r hv) has
    refine ⟨?_, hi.noPanic, ?_, ?_, ?_, ?_⟩
    · intro hc
      rcases hc with hc | hc | hc | hc | hc | hc | hc
      · rw [hi.open1] at hc; cases hc
      · rw [hi.open2] at hc; cases hc
      · rw [hi.open3] at hc; cases hc
      all_goals (rw [hi.closer] at hc; cases hc)
    · simp [step, hi.noPanic, hi.via]
    · simp [step, hi.noPanic, hi.brasil]
    · intro ha
      rw [hi.handler] at ha
      cases ha
    · intro ha
      rw [hi.handler] at ha
      cases ha

/-- Witness of the amended C10: ViaCEP wins the race, BrasilAPI abandons its
hand-off after the cancellation, and the closing goroutine closes the three
channels. -/
theorem channels_close_after_clients_finish_witness :
    ∃ s, run envBothOk
        [.viaFetch, .brasilFetch, .recvVia, .brasilAbandon,
         .closerStep, .closerStep, .closerStep, .closerStep]
        (BuscaCEPHandler sampleRequest) = some s ∧
      s.closedBrasil = true ∧ s.closedVia = true ∧ s.closedErr = true ∧
      (s.via = .finished ∧ s.brasil = .finished) ∧
      s.panicked = false ∧
      step envBothOk .viaSendClosed s = none ∧
      step envBothOk .brasilSendClosed s = none :=
  ⟨_, rfl, rfl, rfl, rfl,
    (channels_close_after_clients_finish envBothOk sampleRequest _
      ⟨[.viaFetch, .brasilFetch, .recvVia, .brasilAbandon,
        .closerStep, .closerStep, .closerStep, .closerStep], rfl⟩).1 (Or.inl rfl),
    (channels_close_after_clients_finish envBothOk sampleRequest _
      ⟨[.viaFetch, .brasilFetch, .recvVia, .brasilAbandon,
        .closerStep, .closerStep, .closerStep, .closerStep], rfl⟩).2.1,
    (channels_close_after_clients_finish envBothOk sampleRequest _
      ⟨[.viaFetch, .brasilFetch, .recvVia, .brasilAbandon,
        .closerStep, .closerStep, .closerStep, .closerStep], rfl⟩).2.2.1,
    (channels_close_after_clients_finish envBothOk sampleRequest _
      ⟨[.viaFetch, .brasilFetch, .recvVia, .brasilAbandon,
        .closerStep, .closerStep, .closerStep, .closerStep], rfl⟩).2.2.2.1⟩

/-! ## C3: a record handed over is served with its provider named -/

theorem fired_step (env : Env) (a : Action) (s t : Sys)
    (hf : s.fired = true) (h : step env a s = some t) : t.fired = true := by
  unfold step at h
  split at h
  · cases h
  · cases a <;> simp only at h <;> (try split at h) <;> (try split at h) <;>
      (try split at h) <;>
      first
        | (cases h; done)
        | (obtain rfl := Option.some.inj h; exact hf)
        | (obtain rfl := Option.some.inj h; rfl)
        | (obtain rfl := Option.some.inj h
           simp only [wgDone, handlerReturn]
           split <;> exact hf)

theorem recvDone_response (env : Env) (s t : Sys) (hs : Inv env s)
    (h : step env .recvDone s = some t) :
    t.handler = .returned ∧ t.fired = true ∧
      t.w = ⟨[("X-Content-Type-Options", "nosniff"),
        ("Content-Type", "text/plain; charset=utf-8")], some 408, "Timeout\n"⟩ := by
  simp only [step, hs.noPanic, Bool.false_eq_true, ↓reduceIte] at h
  split at h
  · cases h
  · rename_i ha
    split at h
    · rename_i hd
      obtain rfl := Option.some.inj h
      refine ⟨rfl, fired_of_done env s hs hd ha, ?_⟩
      simp only [handlerReturn, (hs.fresh ha).1, respondTimeout_fresh]
    · cases h

theorem recvDone_run (env : Env) (as : List Action) (s t : Sys) (hs : Inv env s)
    (h : run env as s = some t) (hm : Action.recvDone ∈ as) :
    t.handler = .returned ∧ t.fired = true ∧
      t.w = ⟨[("X-Content-Type-Options", "nosniff"),
        ("Content-Type", "text/plain; charset=utf-8")], some 408, "Timeout\n"⟩ := by
  induction as generalizing s with
  | nil => cases hm
  | cons a as ih =>
    simp only [run] at h
    split at h
    · rename_i s1 h1
      rcases List.mem_cons.mp hm with ha | ha
      · subst ha
        obtain ⟨r1, r2, r3⟩ := recvDone_response env s s1 hs h1
        have hfr : ∀ (bs : List Action) (x y : Sys), x.fired = true →
            run env bs x = some y → y.fired = true := by
          intro bs
          induction bs with
          | nil =>
            intro x y hx hxy
            simp only [run, Option.some.injEq] at hxy
            exact hxy ▸ hx
          | cons b bs ihb =>
            intro x y hx hxy
            simp only [run] at hxy
            split at hxy
            · rename_i x1 hx1
              exact ihb x1 y (fired_step env b x x1 hx hx1) hxy
            · cases hxy
        obtain ⟨q1, q2⟩ := returned_run env as s1 t r1 h
        exact ⟨q1, hfr as s1 t r2 h, q2.trans r3⟩
      · exact ih s1 (inv_step env a s s1 hs h1) h ha
    · cases h

/-- C6, as stated, fails: one second passes with both clients still in their
upstream call and nothing delivered, and the deadline timer fires before the
handler's select has run.  The call of `BuscaCepViaCep` then fails with
`context deadline exceeded`, its report is on offer when the select runs, and
the select takes `case err := <-errCh`: the response is 500, not 408, and its
body names ViaCEP. -/
theorem late_select_takes_failure_report :
    ∃ s0 s, run envBothExpired [.tick timeout, .timerFire]
        (BuscaCEPHandler sampleRequest) = some s0 ∧
      s0.handler = .atSelect ∧ s0.fired = true ∧ s0.w = ResponseWriter.fresh ∧
      s0.via = .started ∧ s0.brasil = .started ∧
      run envBothExpired [.viaFetch, .recvErrVia] s0 = some s ∧
      s.handler = .returned ∧ s.w.status = some 500 ∧
      s.w.body =
        "Erro: erro ao fazer a requisição na ViaCEP: context deadline exceeded\n" ∧
      ∀ u, Reachable envBothExpired s u → u.w.status = some 500 := by
  refine ⟨_, _, rfl, rfl, rfl, rfl, rfl, rfl, rfl, rfl, rfl, by decide, ?_⟩
  rintro u ⟨as, has⟩
  rw [(returned_run envBothExpired as _ u rfl has).2]
  rfl

/-- C6, amended: in every run of a valid request in which the handler's select
takes its `ctx.Done()` case, the response of the run is 408 with the body
`Timeout` (and the newline of `http.Error`), which holds no JSON key of a
provider record and is the serialization of no provider record; at least one
second has then passed.  The case can be taken once the deadline has expired
and not before, and it is the only case the select can take when, as it
runs, no client offers a record or a failure report and no channel is closed. -/
theorem deadline_case_answers_timeout (env : Env) (r : Request)
    (as : List Action) (s : Sys)
    (hr : r.valid) (h : run env as (BuscaCEPHandler r) = some s) :
    (Action.recvDone ∈ as →
      s.handler = .returned ∧ s.w.status = some 408 ∧ s.w.body = "Timeout\n" ∧
      1000000000 ≤ s.now ∧
      (∀ f ∈ jsonFieldNames, ¬ f.data <:+: s.w.body.data) ∧
      (∀ q rb, s.w.body ≠ marshalBrasilAPICep q rb) ∧
      (∀ q rv, s.w.body ≠ marshalViaCEP q rv)) ∧
    (s.handler = .atSelect → s.fired = true → ∃ t, step env .recvDone s = some t) ∧
    (s.handler = .atSelect → s.fired = false → step env .recvDone s = none) ∧
    (s.handler = .atSelect → s.fired = true →
      offering s.via = false → offering s.brasil = false →
      s.closedBrasil = false → s.closedVia = false → s.closedErr = false →
      ∀ a t, a.isHandler = true → step env a s = some t → a = .recvDone) := by
  have hi := inv_init env r hr
  have hs := inv_run env as _ s hi h
  refine ⟨fun hm => ?_, fun ha hf => ?_, fun ha hf => ?_, ?_⟩
  · obtain ⟨r1, r2, r3⟩ := recvDone_run env as _ s hi h hm
    have hbody : s.w.body = "Timeout\n" := by rw [r3]
    refine ⟨r1, by rw [r3], hbody, hs.late r2, ?_, ?_, ?_⟩
    · rw [hbody]
      exact timeout_body_has_no_field
    · intro q rb hq
      have := marshalBrasilAPICep_head q rb
      rw [← hq, hbody] at this
      revert this
      decide
    · intro q rv hq
      have := marshalViaCEP_head q rv
      rw [← hq, hbody] at this
      revert this
      decide
  · exact ⟨_, step_recvDone env s hs.noPanic ha (by simp [ctxDone, hf])⟩
  · simp [step, hs.noPanic, ha, ctxDone, hf, (hs.fresh ha).2]
  · intro ha hf hov hob c1 c2 c3 a t hh hst
    cases a <;> simp only [Action.isHandler, Bool.false_eq_true] at hh
    · cases hb : s.brasil <;> simp [step, hs.noPanic, ha, hb, c1, offering] at hst hob
    · cases hb : s.via <;> simp [step, hs.noPanic, ha, hb, c2, offering] at hst hov
    · cases hb : s.via <;> simp [step, hs.noPanic, ha, hb, offering] at hst hov
    · cases hb : s.brasil <;> simp [step, hs.noPanic, ha, hb, offering] at hst hob
    · simp [step, hs.noPanic, ha, c3] at hst
    · rfl

/-- Witness of the amended C6: `GET /?cep=01001000`, one second passes with
both clients still in their upstream call, the deadline timer fires, and the
handler's select takes its `ctx.Done()` case. -/
theorem deadline_case_answers_timeout_witness :
    ∃ s, run envBothOk [.tick timeout, .timerFire, .recvDone]
        (BuscaCEPHandler sampleRequest) = some s ∧
      s.handler = .returned ∧ s.w.status = some 408 ∧ s.w.body = "Timeout\n" ∧
      1000000000 ≤ s.now ∧
      (∀ f ∈ jsonFieldNames, ¬ f.data <:+: s.w.body.data) ∧
      (∀ q rb, s.w.body ≠ marshalBrasilAPICep q rb) ∧
      (∀ q rv, s.w.body ≠ marshalViaCEP q rv) :=
  ⟨_, rfl,
    (deadline_case_answers_timeout envBothOk sampleRequest
      [.tick timeout, .timerFire, .recvDone] _ (by decide) rfl).1 (by decide)⟩

end BuscaCepGo
